import Mathlib

/-!
# Verification of the tile-ortho tiling and label-conversion core

Shallow embedding of `tile_ortho.py` and its driver scripts
(`tile_orthophoto.py`, `prepare_yolo_dataset.py`, `combine_yolo_outputs.py`).

Real (Python `float`) arithmetic is modelled with exact rationals `ℚ`.
Python operations that can raise are modelled in `Except String`;
in particular float division by zero raises `ZeroDivisionError`, which we
model with `pydiv`.  Geometric polygons handled by shapely are modelled as
point sets (`Set (ℚ × ℚ)`) where arbitrary geometry is involved, and as
axis-aligned rectangles (`Rect`) where the code only ever builds rectangles.
-/

namespace TileOrtho

/-- An axis-aligned rectangle `(min_x, min_y, max_x, max_y)`, the shape built
by `shapely.geometry.box` and by the bbox branch of the YOLO decoders. -/
structure Rect where
  minx : ℚ
  miny : ℚ
  maxx : ℚ
  maxy : ℚ
  deriving DecidableEq, Repr

/-- The (closed) point set of a rectangle. -/
def Rect.toSet (r : Rect) : Set (ℚ × ℚ) :=
  {p | r.minx ≤ p.1 ∧ p.1 ≤ r.maxx ∧ r.miny ≤ p.2 ∧ p.2 ≤ r.maxy}

/-- The interior point set of a rectangle (used to state that grid cells
overlap at most on their boundaries). -/
def Rect.interiorSet (r : Rect) : Set (ℚ × ℚ) :=
  {p | r.minx < p.1 ∧ p.1 < r.maxx ∧ r.miny < p.2 ∧ p.2 < r.maxy}

/-- Decidable membership test for `Rect.toSet`, the model of keeping a point
when clipping it by a rectangle. -/
def Rect.containsB (r : Rect) (p : ℚ × ℚ) : Bool :=
  decide (r.minx ≤ p.1) && decide (p.1 ≤ r.maxx) &&
  decide (r.miny ≤ p.2) && decide (p.2 ≤ r.maxy)

/-- Python float division: `a / b` raises `ZeroDivisionError` when `b == 0`. -/
def pydiv (a b : ℚ) : Except String ℚ :=
  if b = 0 then .error "ZeroDivisionError: float division by zero"
  else .ok (a / b)

/-- Python `int()` applied to a float: truncation toward zero. -/
def pyint (q : ℚ) : ℤ :=
  if q < 0 then -⌊-q⌋ else ⌊q⌋

/-- The tile-id string built at `tile_ortho.py:86-88`:
`f"{int(min_x + i*tile_width_m)}_{int(min_y + j*tile_height_m)}"`. -/
def tileIdOf (x y : ℚ) : String :=
  toString (pyint x) ++ "_" ++ toString (pyint y)

/-- The grid cell passed to `shapely.geometry.box` for column `i`, row `j`. -/
def cellAt (minx miny tw th : ℚ) (i j : ℕ) : Rect :=
  ⟨minx + i * tw, miny + j * th, minx + (i + 1) * tw, miny + (j + 1) * th⟩

/-- One record yielded by `get_tiles`: the tile id, the raw grid cell, and the
inner geometry `box(...).intersection(row.geometry)`. -/
structure Tile where
  tileId : String
  cell : Rect
  inner : Set (ℚ × ℚ)

/-- The loop body of `get_tiles`: one tile record per `(i, j)` of
`itertools.product(range(n_cols), range(n_rows))` (column-major order,
`i` outer). -/
def tileGrid (geom : Set (ℚ × ℚ)) (minx miny : ℚ) (nCols nRows : ℤ)
    (tw th : ℚ) : List Tile :=
  (List.range nCols.toNat).flatMap fun (i : ℕ) =>
    (List.range nRows.toNat).map fun (j : ℕ) =>
      { tileId := tileIdOf (minx + i * tw) (miny + j * th)
        cell := cellAt minx miny tw th i j
        inner := (cellAt minx miny tw th i j).toSet ∩ geom }

/-- Shallow embedding of the body of `get_tiles` for a single area row
(`tile_ortho.py:65-89`).  `geom` is `row.geometry` as a point set and
`(minx, miny, maxx, maxy)` is `row.geometry.bounds`.  `math.ceil` of a float
is `Int.ceil`; `range` of a negative count is empty, which `Int.toNat`
captures; the two float divisions producing the tile dimensions go through
`pydiv` because Python raises on a zero divisor. -/
def getTilesArea (geom : Set (ℚ × ℚ)) (minx miny maxx maxy mw mh : ℚ) :
    Except String (List Tile) := do
  let width := maxx - minx
  let height := maxy - miny
  let nCols : ℤ := ⌈(← pydiv width mw)⌉
  let nRows : ℤ := ⌈(← pydiv height mh)⌉
  let tw ← pydiv width (nCols : ℚ)
  let th ← pydiv height (nRows : ℚ)
  return tileGrid geom minx miny nCols nRows tw th

/-- `get_tiles` over a list of area rows (each row carrying its geometry and
its bounds), concatenating each area's tiles in generator order; the
generator stops at the first raising area. -/
def getTiles (areas : List ((Set (ℚ × ℚ)) × ℚ × ℚ × ℚ × ℚ)) (mw mh : ℚ) :
    Except String (List Tile) :=
  match areas with
  | [] => .ok []
  | a :: rest => do
    let ts ← getTilesArea a.1 a.2.1 a.2.2.1 a.2.2.2.1 a.2.2.2.2 mw mh
    let more ← getTiles rest mw mh
    return ts ++ more

/-! ## YOLO record conversion (`tile_ortho.py:152-181` and `125-149`) -/

/-- One YOLO label record `class_id x_center y_center width height`, with the
four box values as exact rationals (Python floats). -/
structure YoloRec where
  cls : ℤ
  xc : ℚ
  yc : ℚ
  w : ℚ
  h : ℚ
  deriving DecidableEq, Repr

/-- Shallow embedding of `convert_to_yolo_format` (`tile_ortho.py:152-181`),
producing the numeric fields of the emitted YOLO line.  A zero-size image
bbox would raise `ZeroDivisionError` in Python; the claims about this
function only concern object boxes strictly inside the image bbox, where
both denominators are nonzero. -/
def convert_to_yolo_format (objectBbox imgBbox : Rect) (classId : ℤ) :
    YoloRec :=
  let imgWidth := imgBbox.maxx - imgBbox.minx
  let imgHeight := imgBbox.maxy - imgBbox.miny
  let objMinXYolo := (objectBbox.minx - imgBbox.minx) / imgWidth
  let objMaxXYolo := (objectBbox.maxx - imgBbox.minx) / imgWidth
  let objMinYYolo := (imgBbox.maxy - objectBbox.maxy) / imgHeight
  let objMaxYYolo := (imgBbox.maxy - objectBbox.miny) / imgHeight
  { cls := classId
    xc := (objMinXYolo + objMaxXYolo) / 2
    yc := (objMinYYolo + objMaxYYolo) / 2
    w := objMaxXYolo - objMinXYolo
    h := objMaxYYolo - objMinYYolo }

/-- A detected geometry: the rectangle polygon built by
`bboxes_from_yolo_output` or the scaled-circle "oval" built by
`ovals_from_yolo_output` (recorded by its center and half-axes). -/
inductive Geom
  | rect (r : Rect)
  | oval (cx cy hw hh : ℚ)
  deriving DecidableEq, Repr

/-- Shapely centroid of a detected geometry: the rectangle's centroid is its
center, and the 16-gon produced by `buffer(1, resolution=4)` then `scale` is
centrally symmetric about its center, so its centroid is exactly the
center. -/
def Geom.centroid : Geom → ℚ × ℚ
  | .rect r => ((r.minx + r.maxx) / 2, (r.miny + r.maxy) / 2)
  | .oval cx cy _ _ => (cx, cy)

/-- The per-line body of `bboxes_from_yolo_output` (`tile_ortho.py:125-149`):
decode one YOLO record against the tile's geographic bounds. -/
def bboxFromYolo (bounds : Rect) (rec : YoloRec) : ℤ × Geom :=
  let width := bounds.maxx - bounds.minx
  let height := bounds.maxy - bounds.miny
  let xCenter := bounds.minx + rec.xc * width
  let yCenter := bounds.maxy - rec.yc * height
  let boxWidth := rec.w * width
  let boxHeight := rec.h * height
  (rec.cls, .rect ⟨xCenter - boxWidth / 2, yCenter - boxHeight / 2,
    xCenter + boxWidth / 2, yCenter + boxHeight / 2⟩)

/-- The per-line body of `ovals_from_yolo_output` (`tile_ortho.py:98-122`). -/
def ovalFromYolo (bounds : Rect) (rec : YoloRec) : ℤ × Geom :=
  let width := bounds.maxx - bounds.minx
  let height := bounds.maxy - bounds.miny
  let xCenter := bounds.minx + rec.xc * width
  let yCenter := bounds.maxy - rec.yc * height
  let boxWidth := rec.w * width
  let boxHeight := rec.h * height
  (rec.cls, .oval xCenter yCenter (boxWidth / 2) (boxHeight / 2))

/-- `bboxes_from_yolo_output` over a whole (already parsed) label file. -/
def bboxesFromYoloOutput (labels : List YoloRec) (bounds : Rect) :
    List (ℤ × Geom) :=
  labels.map (bboxFromYolo bounds)

/-- `ovals_from_yolo_output` over a whole (already parsed) label file. -/
def ovalsFromYoloOutput (labels : List YoloRec) (bounds : Rect) :
    List (ℤ × Geom) :=
  labels.map (ovalFromYolo bounds)

/-! ## The reconstruction pipeline (`combine_yolo_outputs.py:13-56`) -/

/-- One row of the tiles shapefile together with the filesystem facts and the
parsed label file the script reads for it.  The inner-tile geometry is
modelled as a rectangle (the grid-cell case). -/
structure DetTile where
  innerRect : Rect
  bounds : Rect
  imgExists : Bool
  labelExists : Bool
  labels : List YoloRec
  deriving DecidableEq, Repr

/-- The message of the `ValueError` raised for an unsupported shape mode
(`combine_yolo_outputs.py:40-41`). -/
def shapeErrMsg (shape : String) : String :=
  "Shape should be rectangle or oval. Got " ++ shape ++ " instead."

/-- The message of the `ValueError` raised by `pd.concat` on an empty list of
parts (`combine_yolo_outputs.py:51-54` with no processed tile). -/
def concatErrMsg : String := "No objects to concatenate"

/-- Shape dispatch of `combine_yolo_outputs.py:33-41`:
oval first, then rectangle, else `ValueError`. -/
def tileDetections (shape : String) (t : DetTile) :
    Except String (List (ℤ × Geom)) :=
  if shape = "oval" then .ok (ovalsFromYoloOutput t.labels t.bounds)
  else if shape = "rectangle" then .ok (bboxesFromYoloOutput t.labels t.bounds)
  else .error (shapeErrMsg shape)

/-- The centroid clip of `combine_yolo_outputs.py:47-48`: geopandas
`centroid.clip(tile_inner)` keeps exactly the rows whose centroid point lies
in the (closed) inner geometry, and `loc[centroids.index]` retains those
rows. -/
def clipByInner (t : DetTile) (dets : List (ℤ × Geom)) : List (ℤ × Geom) :=
  dets.filter fun d => t.innerRect.containsB d.2.centroid

/-- The main loop of `combine_yolo_outputs.py:23-49`: skip a tile unless both
its image and its label file exist, decode its labels per the shape mode,
clip by the inner tile, and collect one part per processed tile. -/
def combineParts (shape : String) :
    List DetTile → Except String (List (List (ℤ × Geom)))
  | [] => .ok []
  | t :: ts =>
    if t.imgExists && t.labelExists then do
      let dets ← tileDetections shape t
      let rest ← combineParts shape ts
      return clipByInner t dets :: rest
    else combineParts shape ts

/-- `combine_yolo_outputs.main`: run the loop, then `pd.concat` the parts
(raising on an empty list) into the written output. -/
def combineMain (shape : String) (tiles : List DetTile) :
    Except String (List (ℤ × Geom)) := do
  let parts ← combineParts shape tiles
  if parts.isEmpty then .error concatErrMsg
  else return parts.flatten

/-! ## Tiling pipeline stages -/

/-- The message of the failed buffer-size assertion
(`tile_orthophoto.py:60-62` and `67-69`). -/
def bufferAssertMsg : String :=
  "Maximum tile size smaller than twice the buffer size."

/-- The tile-generation stage of `scripts/tile_orthophoto.py:54-80`: it
asserts `max_outer_tile_width_m > 2 * buffer_m` (and the same for the
height) before deriving the inner dimensions and generating tiles; a failed
assert aborts before any cropping. -/
def tileOrthophotoTileStage (scaleX scaleY : ℚ) (maxTileSizePx : ℕ)
    (bufferM : ℚ) (areas : List ((Set (ℚ × ℚ)) × ℚ × ℚ × ℚ × ℚ)) :
    Except String (List Tile) :=
  let maxOuterW := scaleX * maxTileSizePx
  if maxOuterW > 2 * bufferM then
    let maxInnerW := maxOuterW - 2 * bufferM
    let maxOuterH := scaleY * maxTileSizePx
    if maxOuterH > 2 * bufferM then
      getTiles areas maxInnerW (maxOuterH - 2 * bufferM)
    else .error bufferAssertMsg
  else .error bufferAssertMsg

/-- The tile-generation stage of `scripts/prepare_yolo_dataset.py:59-77`:
the inner dimensions are derived directly, with no assertion on the buffer
size anywhere in the script. -/
def prepareYoloTileStage (scaleX scaleY : ℚ) (maxWpx maxHpx : ℕ)
    (bufferM : ℚ) (areas : List ((Set (ℚ × ℚ)) × ℚ × ℚ × ℚ × ℚ)) :
    Except String (List Tile) :=
  getTiles areas (scaleX * maxWpx - 2 * bufferM)
    (scaleY * maxHpx - 2 * bufferM)

/-! ## Alpha normalization (`tile_ortho.py:31-62`) -/

/-- The numpy masked assignment `band[alpha == 0] = 255` on one band. -/
def replaceAlphaBand (band alpha : List ℤ) : List ℤ :=
  List.zipWith (fun v av => if av = 0 then 255 else v) band alpha

/-- Shallow embedding of `replace_geotiff_alpha`: each band is its flattened
pixel array.  Four bands: the last one is the alpha channel, transparent
pixels become white and the alpha band is dropped; three bands: passed
through; anything else: `ValueError`. -/
def replace_geotiff_alpha (bands : List (List ℤ)) :
    Except String (List (List ℤ)) :=
  match bands with
  | [r, g, b, a] =>
      .ok [replaceAlphaBand r a, replaceAlphaBand g a, replaceAlphaBand b a]
  | [r, g, b] => .ok [r, g, b]
  | _ => .error ("Unsupported band count: " ++ toString bands.length)

/-! ## Outer-tile buffering (`tile_orthophoto.py:81-84`) -/

/-- Shapely `buffer(distance, join_style=2)` (mitre/square join) on a point
set: the Minkowski expansion by the closed square of radius `d`. -/
def squareBuffer (s : Set (ℚ × ℚ)) (d : ℚ) : Set (ℚ × ℚ) :=
  {p | ∃ q ∈ s, |p.1 - q.1| ≤ d ∧ |p.2 - q.2| ≤ d}

/-- `tiles["inner_tile"].buffer(distance=buffer_m, join_style=2).clip(bounds)`
for a single inner geometry. -/
def outerTile (inner : Set (ℚ × ℚ)) (d : ℚ) (bounds : Rect) :
    Set (ℚ × ℚ) :=
  squareBuffer inner d ∩ bounds.toSet

/-- The rectangle-mode detections of one tile,
`tile_ortho.bboxes_from_yolo_output(labels_path, bounds)` as called at
`combine_yolo_outputs.py:37-38`. -/
def rectDets (t : DetTile) : List (ℤ × Geom) :=
  bboxesFromYoloOutput t.labels t.bounds

/-- The message raised by the tile-width/height division on a degenerate
grid. -/
def zeroDivMsg : String := "ZeroDivisionError: float division by zero"

/-! ## Helper lemmas -/

theorem Rect.containsB_iff (r : Rect) (p : ℚ × ℚ) :
    r.containsB p = true ↔ p ∈ r.toSet := by
  simp only [Rect.containsB, Rect.toSet, Bool.and_eq_true, decide_eq_true_eq,
    Set.mem_setOf_eq, and_assoc]

theorem exbind_ok {α β : Type} (a : α) (f : α → Except String β) :
    ((Except.ok a : Except String α) >>= f) = f a := rfl

theorem exbind_err {α β : Type} (e : String) (f : α → Except String β) :
    ((Except.error e : Except String α) >>= f) = .error e := rfl

theorem exmap_ok {α β : Type} (a : α) (f : α → β) :
    (f <$> (Except.ok a : Except String α)) = .ok (f a) := rfl

theorem exmap_err {α β : Type} (e : String) (f : α → β) :
    (f <$> (Except.error e : Except String α)) = .error e := rfl

theorem expure_eq {α : Type} (a : α) :
    (Pure.pure a : Except String α) = .ok a := rfl

theorem exceptmap_ok {α β : Type} (a : α) (f : α → β) :
    Except.map f (Except.ok a : Except String α) = .ok (f a) := rfl

/-- Evaluation rule for `getTilesArea` on the success path: when neither
maximum dimension is zero and both grid counts are nonzero, the result is the
full grid with tile dimensions `width / n_cols` and `height / n_rows`. -/
theorem getTilesArea_ok (geom : Set (ℚ × ℚ)) (minx miny maxx maxy mw mh : ℚ)
    (hmw : mw ≠ 0) (hmh : mh ≠ 0)
    (hnc : (⌈(maxx - minx) / mw⌉ : ℚ) ≠ 0)
    (hnr : (⌈(maxy - miny) / mh⌉ : ℚ) ≠ 0) :
    getTilesArea geom minx miny maxx maxy mw mh =
      .ok (tileGrid geom minx miny ⌈(maxx - minx) / mw⌉ ⌈(maxy - miny) / mh⌉
        ((maxx - minx) / (⌈(maxx - minx) / mw⌉ : ℚ))
        ((maxy - miny) / (⌈(maxy - miny) / mh⌉ : ℚ))) := by
  rw [getTilesArea]
  simp only [pydiv, if_neg hmw, if_neg hmh]
  rw [exbind_ok]
  rw [exbind_ok]
  rw [if_neg hnc, exbind_ok, if_neg hnr, exbind_ok, expure_eq]

/-- Evaluation rule for `getTilesArea` when the bounding box has zero width:
`n_cols = ceil(0) = 0` and the tile-width division raises. -/
theorem getTilesArea_zero_width (geom : Set (ℚ × ℚ))
    (minx miny maxy mw mh : ℚ) (hmw : mw ≠ 0) :
    getTilesArea geom minx miny minx maxy mw mh = .error zeroDivMsg := by
  have h0 : (minx - minx) / mw = 0 := by simp
  rw [getTilesArea]
  simp only [pydiv, if_neg hmw, h0, zeroDivMsg]
  rw [exbind_ok]
  by_cases hmh : mh = 0
  · rw [if_pos hmh, exbind_err]
  · rw [if_neg hmh, exbind_ok]
    have hc : ((⌈(0 : ℚ)⌉ : ℚ) = 0) := by norm_num
    rw [if_pos hc, exbind_err]

/-- Evaluation rule for `getTilesArea` when the bounding box has zero height
but positive width: `n_rows = 0` and the tile-height division raises. -/
theorem getTilesArea_zero_height (geom : Set (ℚ × ℚ))
    (minx miny maxx mw mh : ℚ) (hx : minx < maxx) (hmw : 0 < mw)
    (hmh : mh ≠ 0) :
    getTilesArea geom minx miny maxx miny mw mh = .error zeroDivMsg := by
  have h0 : (miny - miny) / mh = 0 := by simp
  have hnc : (⌈(maxx - minx) / mw⌉ : ℚ) ≠ 0 := by
    have : (0 : ℤ) < ⌈(maxx - minx) / mw⌉ :=
      Int.ceil_pos.mpr (div_pos (by linarith) hmw)
    exact_mod_cast this.ne.symm
  rw [getTilesArea]
  simp only [pydiv, if_neg (ne_of_gt hmw), if_neg hmh, h0, zeroDivMsg]
  rw [exbind_ok, exbind_ok, if_neg hnc, exbind_ok]
  have hc : ((⌈(0 : ℚ)⌉ : ℚ) = 0) := by norm_num
  rw [if_pos hc, exbind_err]

/-! ## Claim theorems -/

/-- C1: for any object bbox strictly inside an image bbox, converting with
`convert_to_yolo_format` and decoding with the inverse transform of
`bboxes_from_yolo_output` (same image bounds) recovers the original bbox.
Over exact rationals the round trip is an exact identity, which is in
particular within the claimed `1e-9` relative tolerance. -/
theorem yolo_roundtrip (obj img : Rect) (cls : ℤ)
    (h1 : img.minx < obj.minx) (h2 : obj.maxx < img.maxx)
    (h3 : img.miny < obj.miny) (h4 : obj.maxy < img.maxy)
    (h5 : obj.minx ≤ obj.maxx) (h6 : obj.miny ≤ obj.maxy) :
    bboxFromYolo img (convert_to_yolo_format obj img cls) =
      (cls, .rect obj) := by
  obtain ⟨a, b, c, d⟩ := obj
  obtain ⟨e, f, g, k⟩ := img
  simp only [] at h1 h2 h3 h4 h5 h6
  have hw : g - e ≠ 0 := by intro h; linarith
  have hh : k - f ≠ 0 := by intro h; linarith
  simp only [bboxFromYolo, convert_to_yolo_format, Prod.mk.injEq,
    Geom.rect.injEq, Rect.mk.injEq]
  refine ⟨trivial, ?_, ?_, ?_, ?_⟩ <;> field_simp <;> ring

/-- Witness for C1 at a concrete input. -/
theorem yolo_roundtrip_witness :
    bboxFromYolo ⟨0, 0, 4, 4⟩
        (convert_to_yolo_format ⟨1, 1, 2, 3⟩ ⟨0, 0, 4, 4⟩ 2) =
      (2, .rect ⟨1, 1, 2, 3⟩) :=
  yolo_roundtrip ⟨1, 1, 2, 3⟩ ⟨0, 0, 4, 4⟩ 2 (by norm_num) (by norm_num)
    (by norm_num) (by norm_num) (by norm_num) (by norm_num)

/-- C9: `convert_to_yolo_format` flips the vertical axis: both normalized
y edges are `(img_max_y - obj_y) / img_height`, so a bbox touching the top
edge has `y_center` equal to half its relative height (near `0` for a small
box) and a bbox touching the bottom edge has `y_center` equal to one minus
half its relative height (near `1`). -/
theorem yolo_vertical_flip (obj img : Rect) (cls : ℤ)
    (hH : img.miny < img.maxy) :
    ((convert_to_yolo_format obj img cls).yc =
        ((img.maxy - obj.maxy) / (img.maxy - img.miny) +
          (img.maxy - obj.miny) / (img.maxy - img.miny)) / 2) ∧
    (obj.maxy = img.maxy →
      (convert_to_yolo_format obj img cls).yc =
        (obj.maxy - obj.miny) / (2 * (img.maxy - img.miny))) ∧
    (obj.miny = img.miny →
      (convert_to_yolo_format obj img cls).yc =
        1 - (obj.maxy - obj.miny) / (2 * (img.maxy - img.miny))) := by
  obtain ⟨a, b, c, d⟩ := obj
  obtain ⟨e, f, g, k⟩ := img
  simp only [] at hH
  have hh : k - f ≠ 0 := by intro h; linarith
  refine ⟨rfl, ?_, ?_⟩
  · intro htop
    simp only [] at htop
    subst htop
    show ((d - d) / (d - f) + (d - b) / (d - f)) / 2 =
      (d - b) / (2 * (d - f))
    rw [sub_self, zero_div, zero_add, div_div, mul_comm]
  · intro hbot
    simp only [] at hbot
    subst hbot
    show ((k - d) / (k - b) + (k - b) / (k - b)) / 2 =
      1 - (d - b) / (2 * (k - b))
    field_simp
    ring

theorem replaceAlphaBand_getD (r a : List ℤ) (i : ℕ)
    (h1 : i < r.length) (h2 : i < a.length) :
    (replaceAlphaBand r a).getD i 0 =
      if a.getD i 0 = 0 then 255 else r.getD i 0 := by
  induction r generalizing a i with
  | nil => simp at h1
  | cons x xs ih =>
    cases a with
    | nil => simp at h2
    | cons y ys =>
      cases i with
      | zero => simp [replaceAlphaBand]
      | succ n =>
        simp only [replaceAlphaBand, List.zipWith_cons_cons, List.getD_cons_succ]
        exact ih ys n (by simpa using h1) (by simpa using h2)

/-- C8: `replace_geotiff_alpha` maps a 4-band raster to 3 bands where every
pixel with alpha 0 becomes 255 and all other pixels keep their values, passes
a 3-band raster through unchanged, and raises for any other band count. -/
theorem alpha_normalization (r g b a : List ℤ) (bands : List (List ℤ))
    (hga : g.length = r.length) (hba : b.length = r.length)
    (haa : a.length = r.length) :
    (replace_geotiff_alpha [r, g, b, a] =
        .ok [replaceAlphaBand r a, replaceAlphaBand g a,
          replaceAlphaBand b a]) ∧
    (∀ i, i < r.length →
      ((replaceAlphaBand r a).getD i 0 =
          if a.getD i 0 = 0 then 255 else r.getD i 0) ∧
      ((replaceAlphaBand g a).getD i 0 =
          if a.getD i 0 = 0 then 255 else g.getD i 0) ∧
      ((replaceAlphaBand b a).getD i 0 =
          if a.getD i 0 = 0 then 255 else b.getD i 0)) ∧
    (replace_geotiff_alpha [r, g, b] = .ok [r, g, b]) ∧
    (bands.length ≠ 3 → bands.length ≠ 4 →
      replace_geotiff_alpha bands =
        .error ("Unsupported band count: " ++ toString bands.length)) := by
  refine ⟨rfl, ?_, rfl, ?_⟩
  · intro i hi
    exact ⟨replaceAlphaBand_getD r a i hi (haa ▸ hi),
      replaceAlphaBand_getD g a i (hga ▸ hi) (haa ▸ hi),
      replaceAlphaBand_getD b a i (hba ▸ hi) (haa ▸ hi)⟩
  · intro h3 h4
    rcases bands with _ | ⟨x, _ | ⟨y, _ | ⟨z, _ | ⟨w, _ | ⟨v, rest⟩⟩⟩⟩⟩
    · rfl
    · rfl
    · rfl
    · exact absurd rfl h3
    · exact absurd rfl h4
    · rfl

/-- Witness for C8 at a concrete input. -/
theorem alpha_normalization_witness :
    ((replace_geotiff_alpha [[9, 8], [7, 6], [5, 4], [0, 1]] =
        .ok [replaceAlphaBand [9, 8] [0, 1], replaceAlphaBand [7, 6] [0, 1],
          replaceAlphaBand [5, 4] [0, 1]]) ∧
      (∀ i, i < ([9, 8] : List ℤ).length →
        ((replaceAlphaBand [9, 8] [0, 1]).getD i 0 =
            if ([0, 1] : List ℤ).getD i 0 = 0 then 255
            else ([9, 8] : List ℤ).getD i 0) ∧
        ((replaceAlphaBand [7, 6] [0, 1]).getD i 0 =
            if ([0, 1] : List ℤ).getD i 0 = 0 then 255
            else ([7, 6] : List ℤ).getD i 0) ∧
        ((replaceAlphaBand [5, 4] [0, 1]).getD i 0 =
            if ([0, 1] : List ℤ).getD i 0 = 0 then 255
            else ([5, 4] : List ℤ).getD i 0)) ∧
      (replace_geotiff_alpha [[9, 8], [7, 6], [5, 4]] =
        .ok [[9, 8], [7, 6], [5, 4]]) ∧
      (([[1], [2]] : List (List ℤ)).length ≠ 3 →
        ([[1], [2]] : List (List ℤ)).length ≠ 4 →
        replace_geotiff_alpha [[1], [2]] =
          .error ("Unsupported band count: " ++
            toString ([[1], [2]] : List (List ℤ)).length))) :=
  alpha_normalization [9, 8] [7, 6] [5, 4] [0, 1] [[1], [2]] rfl rfl rfl

/-- Witness for C9 at a concrete input. -/
theorem yolo_vertical_flip_witness :
    (((convert_to_yolo_format ⟨1, 1, 2, 3⟩ ⟨0, 0, 4, 4⟩ 2).yc =
        ((4 - 3) / (4 - 0) + (4 - 1) / (4 - 0)) / 2) ∧
      ((3 : ℚ) = 4 →
        (convert_to_yolo_format ⟨1, 1, 2, 3⟩ ⟨0, 0, 4, 4⟩ 2).yc =
          (3 - 1) / (2 * (4 - 0))) ∧
      ((1 : ℚ) = 0 →
        (convert_to_yolo_format ⟨1, 1, 2, 3⟩ ⟨0, 0, 4, 4⟩ 2).yc =
          1 - (3 - 1) / (2 * (4 - 0)))) :=
  yolo_vertical_flip ⟨1, 1, 2, 3⟩ ⟨0, 0, 4, 4⟩ 2 (by norm_num)

theorem combineParts_skip_all (shape : String) (tiles : List DetTile)
    (h : ∀ t ∈ tiles, ¬(t.imgExists = true ∧ t.labelExists = true)) :
    combineParts shape tiles = .ok [] := by
  induction tiles with
  | nil => rfl
  | cons t ts ih =>
    have ht := h t (List.mem_cons_self t ts)
    have hb : (t.imgExists && t.labelExists) = false := by
      cases himg : t.imgExists <;> cases hlab : t.labelExists <;> simp_all
    rw [combineParts, hb]
    exact ih fun t' ht' => h t' (List.mem_cons_of_mem t ht')

/-- C10 counterexample: with an unsupported shape and a tiles shapefile whose
only tile is missing its image file, the run does not complete: it fails at
`pd.concat` with "No objects to concatenate" (though indeed not with the
shape error). -/
theorem shape_error_counterexample :
    combineMain "triangle" [⟨⟨0, 0, 1, 1⟩, ⟨0, 0, 1, 1⟩, false, true, []⟩] =
        .error concatErrMsg ∧
      concatErrMsg ≠ shapeErrMsg "triangle" := by
  constructor
  · rfl
  · decide

/-- C10 (amended): the unsupported-shape error is raised only while
processing a tile whose image and label files both exist; when no tile has
both files, the shape error is indeed not raised, but the run does not
complete either: `pd.concat` on the empty parts list raises
"No objects to concatenate". -/
theorem shape_error_needs_complete_tile (shape : String)
    (tiles : List DetTile)
    (h : ∀ t ∈ tiles, ¬(t.imgExists = true ∧ t.labelExists = true)) :
    combineMain shape tiles = .error concatErrMsg ∧
      combineMain shape tiles ≠ .error (shapeErrMsg shape) := by
  have hmain : combineMain shape tiles = .error concatErrMsg := by
    rw [combineMain, combineParts_skip_all shape tiles h, exbind_ok]
    rfl
  refine ⟨hmain, ?_⟩
  intro heq
  rw [hmain] at heq
  have hmsg : concatErrMsg = shapeErrMsg shape := by
    simpa using heq
  have hlen := congrArg String.length hmsg
  rw [shapeErrMsg, concatErrMsg, String.length_append, String.length_append,
    show ("Shape should be rectangle or oval. Got ").length = 39 from rfl,
    show (" instead.").length = 9 from rfl,
    show ("No objects to concatenate").length = 25 from rfl] at hlen
  omega

/-- Witness for the amended C10 at a concrete input. -/
theorem shape_error_needs_complete_tile_witness :
    combineMain "oval" [⟨⟨0, 0, 2, 2⟩, ⟨0, 0, 2, 2⟩, true, false, []⟩] =
        .error concatErrMsg ∧
      combineMain "oval" [⟨⟨0, 0, 2, 2⟩, ⟨0, 0, 2, 2⟩, true, false, []⟩] ≠
        .error (shapeErrMsg "oval") :=
  shape_error_needs_complete_tile "oval"
    [⟨⟨0, 0, 2, 2⟩, ⟨0, 0, 2, 2⟩, true, false, []⟩]
    (by intro t ht; simp only [List.mem_singleton] at ht; subst ht; simp)

/-- C7: the buffer-size precondition `2 * buffer < max_outer_tile_dimension`
is asserted by `tile_orthophoto.py` but nowhere in
`prepare_yolo_dataset.py`: with scale 1, a 10 px maximum tile and a 6 m
buffer (so `2 * 6 ≥ 10`), the prepare pipeline's tiling stage completes
without error, producing an empty tile list (its `n_cols` is negative and
`range` is empty), while the tiling-only pipeline stops on its assert. -/
theorem prepare_pipeline_missing_buffer_check :
    ¬ ((1 : ℚ) * ((10 : ℕ) : ℚ) > 2 * 6) ∧
    prepareYoloTileStage 1 1 10 10 6 [(∅, 0, 0, 10, 10)] = .ok [] ∧
    tileOrthophotoTileStage 1 1 10 6 [(∅, 0, 0, 10, 10)] =
      .error bufferAssertMsg := by
  have hten : ((10 : ℕ) : ℚ) = 10 := by push_cast; ring
  refine ⟨by rw [hten]; norm_num, ?_, ?_⟩
  · have harea : getTilesArea ∅ 0 0 10 10 (1 * ((10 : ℕ) : ℚ) - 2 * 6)
        (1 * ((10 : ℕ) : ℚ) - 2 * 6) = .ok [] := by
      have hmw : (1 * ((10 : ℕ) : ℚ) - 2 * 6) = -2 := by rw [hten]; norm_num
      rw [hmw]
      have hdiv : ((10 : ℚ) - 0) / (-2) = ((-5 : ℤ) : ℚ) := by
        push_cast; norm_num
      have hceil : (⌈((10 : ℚ) - 0) / (-2)⌉ : ℤ) = -5 := by
        rw [hdiv]; exact Int.ceil_intCast (-5)
      have hne : ((⌈((10 : ℚ) - 0) / (-2)⌉ : ℤ) : ℚ) ≠ 0 := by
        rw [hceil]; norm_num
      rw [getTilesArea_ok ∅ 0 0 10 10 (-2) (-2) (by norm_num) (by norm_num)
        hne hne]
      rw [hceil]
      have hgrid : tileGrid ∅ 0 0 (-5) (-5) (((10 : ℚ) - 0) / ((-5 : ℤ) : ℚ))
          (((10 : ℚ) - 0) / ((-5 : ℤ) : ℚ)) = [] := by
        rw [tileGrid, show ((-5 : ℤ)).toNat = 0 from rfl]
        rfl
      rw [hgrid]
    rw [prepareYoloTileStage, getTiles]
    rw [harea, exbind_ok, getTiles, exbind_ok]
    rfl
  · rw [tileOrthophotoTileStage]
    rw [if_neg (by rw [hten]; norm_num)]

/-- C6 counterexample: an area whose bounding box has zero width makes
`get_tiles` raise `ZeroDivisionError` (because `n_cols = ceil(0) = 0` and
`tile_width_m = width / n_cols` divides by zero); no tile records are
produced and `n_cols` is not at least 1. -/
theorem degenerate_area_counterexample :
    getTilesArea ∅ 0 0 0 10 5 5 = .error zeroDivMsg ∧
      (⌈((0 : ℚ) - 0) / 5⌉ : ℤ) = 0 :=
  ⟨getTilesArea_zero_width ∅ 0 0 10 5 5 (by norm_num), by norm_num⟩

/-- C6 (amended): for an Area whose bounding box has zero width (or zero
height, with positive width), the grid count collapses to `0`, not `1`, and
`get_tiles` raises `ZeroDivisionError` when computing the tile width
(resp. height); no tile records are produced. -/
theorem degenerate_area_raises (geom : Set (ℚ × ℚ))
    (minx miny maxx maxy mw mh : ℚ) (hmw : 0 < mw) (hmh : 0 < mh) :
    (getTilesArea geom minx miny minx maxy mw mh = .error zeroDivMsg) ∧
    (minx < maxx →
      getTilesArea geom minx miny maxx miny mw mh = .error zeroDivMsg) :=
  ⟨getTilesArea_zero_width geom minx miny maxy mw mh (ne_of_gt hmw),
    fun hx => getTilesArea_zero_height geom minx miny maxx mw mh hx hmw
      (ne_of_gt hmh)⟩

/-- Witness for the amended C6 at a concrete input. -/
theorem degenerate_area_raises_witness :
    (getTilesArea ∅ 1 2 1 4 5 6 = .error zeroDivMsg) ∧
    ((1 : ℚ) < 3 →
      getTilesArea ∅ 1 2 3 2 5 6 = .error zeroDivMsg) :=
  degenerate_area_raises ∅ 1 2 3 4 5 6 (by norm_num) (by norm_num)

/-- C5 counterexample: with an area bbox `(-5/2, 0, 5/2, 5)` and maximum
tile dimensions `10`, the single produced tile has id `"-2_0"`, the Python
`int()` truncation of `-5/2` toward zero, whereas the floor of `-5/2` is
`-3` and the floor-based id would be `"-3_0"`. -/
theorem tile_id_floor_counterexample :
    Except.map (List.map Tile.tileId)
        (getTilesArea ∅ (-5/2) 0 (5/2) 5 10 10) = .ok ["-2_0"] ∧
      toString ⌊(-5/2 : ℚ)⌋ ++ "_" ++ toString ⌊(0 : ℚ)⌋ = "-3_0" ∧
      ("-2_0" : String) ≠ "-3_0" := by
  have hdw : ((5 : ℚ)/2 - (-5/2)) / 10 = 1/2 := by norm_num
  have hdh : ((5 : ℚ) - 0) / 10 = 1/2 := by norm_num
  have hceil : (⌈(1/2 : ℚ)⌉ : ℤ) = 1 := by
    rw [Int.ceil_eq_iff]
    constructor <;> norm_num
  have hnc : ((⌈((5 : ℚ)/2 - (-5/2)) / 10⌉ : ℤ) : ℚ) ≠ 0 := by
    rw [hdw, hceil]; norm_num
  have hnr : ((⌈((5 : ℚ) - 0) / 10⌉ : ℤ) : ℚ) ≠ 0 := by
    rw [hdh, hceil]; norm_num
  refine ⟨?_, ?_, by decide⟩
  · rw [getTilesArea_ok ∅ (-5/2) 0 (5/2) 5 10 10 (by norm_num) (by norm_num)
      hnc hnr, hdw, hdh, hceil]
    rw [exceptmap_ok]
    rw [tileGrid, show ((1 : ℤ)).toNat = 1 from rfl,
      show List.range 1 = [0] from rfl]
    simp only [List.flatMap_cons, List.map_cons,
      List.map_nil, List.flatMap_nil, List.append_nil, List.nil_append]
    have hx : ((-5 : ℚ)/2 + ((0 : ℕ) : ℚ) * (((5 : ℚ)/2 - (-5/2)) / ((1 : ℤ) : ℚ))) =
        -5/2 := by push_cast; ring
    have hy : ((0 : ℚ) + ((0 : ℕ) : ℚ) * (((5 : ℚ) - 0) / ((1 : ℤ) : ℚ))) = 0 := by
      push_cast; ring
    rw [hx, hy]
    have hpx : pyint (-5/2) = -2 := by
      rw [pyint, if_pos (by norm_num)]
      norm_num
    have hpy : pyint 0 = 0 := by
      rw [pyint, if_neg (by norm_num)]
      norm_num
    rw [tileIdOf, hpx, hpy]
    rfl
  · rw [show ⌊(-5/2 : ℚ)⌋ = -3 by norm_num, show ⌊(0 : ℚ)⌋ = 0 by norm_num]
    rfl

/-- C5 (amended): every produced tile's id is the string
`"{int(x0)}_{int(y0)}"` of its grid cell's lower-left corner, where `int` is
Python truncation toward zero; this agrees with the floor only for
nonnegative coordinates (the counterexample shows they differ at `-5/2`). -/
theorem tile_id_truncation (geom : Set (ℚ × ℚ))
    (minx miny maxx maxy mw mh : ℚ) (hmw : mw ≠ 0) (hmh : mh ≠ 0)
    (hnc : (⌈(maxx - minx) / mw⌉ : ℚ) ≠ 0)
    (hnr : (⌈(maxy - miny) / mh⌉ : ℚ) ≠ 0) :
    ∃ ts, getTilesArea geom minx miny maxx maxy mw mh = .ok ts ∧
      (∀ t ∈ ts, t.tileId = tileIdOf t.cell.minx t.cell.miny) ∧
      (∀ x y : ℚ,
        tileIdOf x y = toString (pyint x) ++ "_" ++ toString (pyint y)) ∧
      (∀ q : ℚ, 0 ≤ q → pyint q = ⌊q⌋) := by
  refine ⟨_, getTilesArea_ok geom minx miny maxx maxy mw mh hmw hmh hnc hnr,
    ?_, fun x y => rfl, fun q hq => by rw [pyint, if_neg (not_lt.mpr hq)]⟩
  intro t ht
  simp only [tileGrid, List.mem_flatMap, List.mem_map, List.mem_range] at ht
  obtain ⟨i, hi, j, hj, rfl⟩ := ht
  rfl

/-- Witness for the amended C5 at a concrete input. -/
theorem tile_id_truncation_witness :
    ∃ ts, getTilesArea ∅ 0 0 1000 1000 600 600 = .ok ts ∧
      (∀ t ∈ ts, t.tileId = tileIdOf t.cell.minx t.cell.miny) ∧
      (∀ x y : ℚ,
        tileIdOf x y = toString (pyint x) ++ "_" ++ toString (pyint y)) ∧
      (∀ q : ℚ, 0 ≤ q → pyint q = ⌊q⌋) :=
  tile_id_truncation ∅ 0 0 1000 1000 600 600 (by norm_num) (by norm_num)
    (by
      rw [show ((1000 : ℚ) - 0) / 600 = 5/3 by norm_num,
        show (⌈(5/3 : ℚ)⌉ : ℤ) = 2 by
          rw [Int.ceil_eq_iff]; constructor <;> norm_num]
      norm_num)
    (by
      rw [show ((1000 : ℚ) - 0) / 600 = 5/3 by norm_num,
        show (⌈(5/3 : ℚ)⌉ : ℤ) = 2 by
          rw [Int.ceil_eq_iff]; constructor <;> norm_num]
      norm_num)

theorem getTilesArea_ok_inv (geom : Set (ℚ × ℚ))
    (minx miny maxx maxy mw mh : ℚ) (ts : List Tile)
    (h : getTilesArea geom minx miny maxx maxy mw mh = .ok ts) :
    ∃ nc nr tw th, ts = tileGrid geom minx miny nc nr tw th := by
  rw [getTilesArea] at h
  simp only [pydiv] at h
  by_cases h1 : mw = 0
  · rw [if_pos h1, exbind_err] at h; exact absurd h (by simp)
  rw [if_neg h1, exbind_ok] at h
  by_cases h2 : mh = 0
  · rw [if_pos h2, exbind_err] at h; exact absurd h (by simp)
  rw [if_neg h2, exbind_ok] at h
  by_cases h3 : ((⌈(maxx - minx) / mw⌉ : ℤ) : ℚ) = 0
  · rw [if_pos h3, exbind_err] at h; exact absurd h (by simp)
  rw [if_neg h3, exbind_ok] at h
  by_cases h4 : ((⌈(maxy - miny) / mh⌉ : ℤ) : ℚ) = 0
  · rw [if_pos h4, exbind_err] at h; exact absurd h (by simp)
  rw [if_neg h4, exbind_ok, expure_eq] at h
  injection h with h
  exact ⟨_, _, _, _, h.symm⟩

theorem mem_tileGrid_inner (geom : Set (ℚ × ℚ)) (minx miny : ℚ)
    (nc nr : ℤ) (tw th : ℚ) (t : Tile)
    (ht : t ∈ tileGrid geom minx miny nc nr tw th) :
    ∃ i j : ℕ, t.inner = (cellAt minx miny tw th i j).toSet ∩ geom := by
  simp only [tileGrid, List.mem_flatMap, List.mem_map, List.mem_range] at ht
  obtain ⟨i, hi, j, hj, rfl⟩ := ht
  exact ⟨i, j, rfl⟩

/-- C4: every generated tile's inner geometry (grid cell intersected with
the Area geometry, the latter clipped to the raster bounds) is contained in
its outer geometry (inner buffered with square join by a nonnegative buffer
distance, clipped to raster bounds), and the outer geometry is contained in
the raster bounds. -/
theorem outer_containment (geom : Set (ℚ × ℚ)) (bounds : Rect)
    (minx miny maxx maxy mw mh d : ℚ) (ts : List Tile) (t : Tile)
    (hd : 0 ≤ d) (hgeom : geom ⊆ bounds.toSet)
    (hts : getTilesArea geom minx miny maxx maxy mw mh = .ok ts)
    (ht : t ∈ ts) :
    t.inner ⊆ outerTile t.inner d bounds ∧
      outerTile t.inner d bounds ⊆ Rect.toSet bounds := by
  obtain ⟨nc, nr, tw, th, rfl⟩ :=
    getTilesArea_ok_inv geom minx miny maxx maxy mw mh ts hts
  obtain ⟨i, j, hinner⟩ :=
    mem_tileGrid_inner geom minx miny nc nr tw th t ht
  have hsub : t.inner ⊆ Rect.toSet bounds := by
    rw [hinner]
    exact Set.inter_subset_right.trans hgeom
  constructor
  · intro p hp
    refine ⟨⟨p, hp, ?_, ?_⟩, hsub hp⟩
    · simpa using hd
    · simpa using hd
  · exact Set.inter_subset_right

/-- Witness for C4 at a concrete input: the single tile of a 1-by-1 grid. -/
theorem outer_containment_witness :
    (Tile.mk (tileIdOf (0 + ((0 : ℕ) : ℚ) * 1) (0 + ((0 : ℕ) : ℚ) * 1))
        (cellAt 0 0 1 1 0 0)
        ((cellAt 0 0 1 1 0 0).toSet ∩ ∅)).inner ⊆
      outerTile (Tile.mk
        (tileIdOf (0 + ((0 : ℕ) : ℚ) * 1) (0 + ((0 : ℕ) : ℚ) * 1))
        (cellAt 0 0 1 1 0 0)
        ((cellAt 0 0 1 1 0 0).toSet ∩ ∅)).inner 1 ⟨0, 0, 1, 1⟩ ∧
    outerTile (Tile.mk
        (tileIdOf (0 + ((0 : ℕ) : ℚ) * 1) (0 + ((0 : ℕ) : ℚ) * 1))
        (cellAt 0 0 1 1 0 0)
        ((cellAt 0 0 1 1 0 0).toSet ∩ ∅)).inner 1 ⟨0, 0, 1, 1⟩ ⊆
      Rect.toSet ⟨0, 0, 1, 1⟩ :=
  outer_containment ∅ ⟨0, 0, 1, 1⟩ 0 0 1 1 1 1 1
    (tileGrid ∅ 0 0 1 1 1 1)
    (Tile.mk (tileIdOf (0 + ((0 : ℕ) : ℚ) * 1) (0 + ((0 : ℕ) : ℚ) * 1))
      (cellAt 0 0 1 1 0 0)
      ((cellAt 0 0 1 1 0 0).toSet ∩ ∅))
    (by norm_num) (Set.empty_subset _)
    (by
      have e1 : ((1 : ℚ) - 0) / 1 = 1 := by norm_num
      have e2 : (⌈((1 : ℚ) - 0) / 1⌉ : ℤ) = 1 := by
        rw [e1]; exact Int.ceil_one
      rw [getTilesArea_ok ∅ 0 0 1 1 1 1 (by norm_num) (by norm_num)
        (by rw [e2]; norm_num) (by rw [e2]; norm_num), e2,
        show ((1 : ℚ) - 0) / (((1 : ℤ) : ℚ)) = 1 by push_cast; norm_num])
    (by
      rw [tileGrid, show ((1 : ℤ)).toNat = 1 from rfl,
        show List.range 1 = [0] from rfl]
      simp only [List.flatMap_cons, List.flatMap_nil, List.map_cons,
        List.map_nil, List.append_nil]
      exact List.mem_singleton.mpr rfl)

theorem combineParts_all_present (tiles : List DetTile)
    (h : ∀ t ∈ tiles, t.imgExists = true ∧ t.labelExists = true) :
    combineParts "rectangle" tiles =
      .ok (tiles.map fun t => clipByInner t (rectDets t)) := by
  induction tiles with
  | nil => rfl
  | cons t ts ih =>
    obtain ⟨h1, h2⟩ := h t (List.mem_cons_self t ts)
    have hb : (t.imgExists && t.labelExists) = true := by rw [h1, h2]; rfl
    rw [combineParts, hb]
    have hdet : tileDetections "rectangle" t =
        .ok (bboxesFromYoloOutput t.labels t.bounds) := by
      rw [tileDetections, if_neg (by decide), if_pos rfl]
    simp only [hdet, exbind_ok,
      ih fun t' ht' => h t' (List.mem_cons_of_mem t ht'), expure_eq,
      List.map_cons, rectDets]
    exact if_pos trivial

theorem count_filter_of_pos {α : Type} [BEq α] [LawfulBEq α] (p : α → Bool)
    (l : List α) (a : α) (h : p a = true) :
    (l.filter p).count a = l.count a := by
  induction l with
  | nil => rfl
  | cons x xs ih =>
    by_cases hx : p x = true
    · rw [List.filter_cons_of_pos hx, List.count_cons, List.count_cons, ih]
    · rw [List.filter_cons_of_neg (by simpa using hx), ih,
        List.count_cons_of_ne fun he : a = x => hx (he ▸ h)]

theorem clip_count_zero (t : DetTile) (d : ℤ × Geom)
    (hcent : d.2.centroid ∉ t.innerRect.toSet) :
    (clipByInner t (rectDets t)).count d = 0 := by
  rw [List.count_eq_zero]
  intro hd
  rw [clipByInner, List.mem_filter] at hd
  exact hcent ((Rect.containsB_iff _ _).mp hd.2)

theorem count_flatMap_clip_one (tiles : List DetTile) (d : ℤ × Geom)
    (t0 : DetTile) (h0 : t0 ∈ tiles) (hcount : tiles.count t0 = 1)
    (hdet : (rectDets t0).count d = 1)
    (hcent : d.2.centroid ∈ t0.innerRect.toSet)
    (hother : ∀ t ∈ tiles, t ≠ t0 → d.2.centroid ∉ t.innerRect.toSet) :
    (tiles.flatMap fun t => clipByInner t (rectDets t)).count d = 1 := by
  induction tiles with
  | nil => simp at h0
  | cons t ts ih =>
    rw [List.flatMap_cons, List.count_append]
    by_cases hteq : t = t0
    · subst hteq
      have hc1 : (clipByInner t (rectDets t)).count d = 1 := by
        rw [clipByInner,
          count_filter_of_pos (fun e => t.innerRect.containsB e.2.centroid)
            (rectDets t) d ((Rect.containsB_iff _ _).mpr hcent)]
        exact hdet
      have hts0 : ts.count t = 0 := by
        rw [List.count_cons_self] at hcount
        omega
      have hrest :
          (ts.flatMap fun t' => clipByInner t' (rectDets t')).count d = 0 := by
        rw [List.count_eq_zero]
        intro hd
        rw [List.mem_flatMap] at hd
        obtain ⟨t', ht', hdin⟩ := hd
        have hne' : t' ≠ t := fun he =>
          absurd (he ▸ ht') (List.count_eq_zero.mp hts0)
        rw [clipByInner, List.mem_filter] at hdin
        exact hother t' (List.mem_cons_of_mem _ ht') hne'
          ((Rect.containsB_iff _ _).mp hdin.2)
      rw [hc1, hrest]
    · have h0' : t0 ∈ ts := by
        rcases List.mem_cons.mp h0 with he | hts
        · exact absurd he.symm hteq
        · exact hts
      have hcount' : ts.count t0 = 1 := by
        rw [List.count_cons_of_ne fun he => hteq he.symm] at hcount
        exact hcount
      have hclip0 : (clipByInner t (rectDets t)).count d = 0 :=
        clip_count_zero t d
          (hother t (List.mem_cons_self _ _) hteq)
      rw [hclip0,
        ih h0' hcount' fun t' ht' => hother t' (List.mem_cons_of_mem _ ht')]

/-- C2: in the reconstruction pipeline (rectangle mode, every tile having
both its files), a detected polygon is kept in a tile's contribution exactly
when its centroid lies in that tile's (closed) inner geometry, and a
detection whose centroid lies in exactly one tile's inner region appears in
the combined output exactly once. -/
theorem dedup_by_centroid (tiles : List DetTile) (d : ℤ × Geom)
    (t0 : DetTile)
    (hall : ∀ t ∈ tiles, t.imgExists = true ∧ t.labelExists = true)
    (hne : tiles ≠ []) :
    (combineMain "rectangle" tiles =
        .ok (tiles.flatMap fun t => clipByInner t (rectDets t))) ∧
    (∀ t : DetTile, ∀ e : ℤ × Geom,
      e ∈ clipByInner t (rectDets t) ↔
        (e ∈ rectDets t ∧ e.2.centroid ∈ t.innerRect.toSet)) ∧
    (t0 ∈ tiles → tiles.count t0 = 1 →
      (rectDets t0).count d = 1 →
      d.2.centroid ∈ t0.innerRect.toSet →
      (∀ t ∈ tiles, t ≠ t0 → d.2.centroid ∉ t.innerRect.toSet) →
      (tiles.flatMap fun t => clipByInner t (rectDets t)).count d = 1) := by
  refine ⟨?_, ?_, fun h0 hc hd hcent hother =>
    count_flatMap_clip_one tiles d t0 h0 hc hd hcent hother⟩
  · rw [combineMain, combineParts_all_present tiles hall, exbind_ok]
    have hmap : (tiles.map fun t => clipByInner t (rectDets t)).isEmpty
        = false := by
      cases tiles with
      | nil => exact absurd rfl hne
      | cons t ts => rfl
    rw [hmap]
    simp only [Bool.false_eq_true, if_false, expure_eq, List.flatMap_def]
  · intro t e
    rw [clipByInner, List.mem_filter]
    exact and_congr_right fun _ => Rect.containsB_iff _ _

/-- Witness for C2 at a concrete input: two complete tiles, a detection in
the first tile. -/
theorem dedup_by_centroid_witness :
    (combineMain "rectangle"
        [⟨⟨0, 0, 10, 10⟩, ⟨0, 0, 10, 10⟩, true, true,
            [⟨0, 1/2, 1/2, 1/5, 1/5⟩]⟩,
          ⟨⟨10, 0, 20, 10⟩, ⟨10, 0, 20, 10⟩, true, true, []⟩] =
        .ok (([⟨⟨0, 0, 10, 10⟩, ⟨0, 0, 10, 10⟩, true, true,
            [⟨0, 1/2, 1/2, 1/5, 1/5⟩]⟩,
          ⟨⟨10, 0, 20, 10⟩, ⟨10, 0, 20, 10⟩, true, true,
            []⟩] : List DetTile).flatMap
          fun t => clipByInner t (rectDets t))) ∧
    (∀ t : DetTile, ∀ e : ℤ × Geom,
      e ∈ clipByInner t (rectDets t) ↔
        (e ∈ rectDets t ∧ e.2.centroid ∈ t.innerRect.toSet)) ∧
    ((⟨⟨0, 0, 10, 10⟩, ⟨0, 0, 10, 10⟩, true, true,
        [⟨0, 1/2, 1/2, 1/5, 1/5⟩]⟩ : DetTile) ∈
        ([⟨⟨0, 0, 10, 10⟩, ⟨0, 0, 10, 10⟩, true, true,
            [⟨0, 1/2, 1/2, 1/5, 1/5⟩]⟩,
          ⟨⟨10, 0, 20, 10⟩, ⟨10, 0, 20, 10⟩, true, true,
            []⟩] : List DetTile) →
      ([⟨⟨0, 0, 10, 10⟩, ⟨0, 0, 10, 10⟩, true, true,
            [⟨0, 1/2, 1/2, 1/5, 1/5⟩]⟩,
          ⟨⟨10, 0, 20, 10⟩, ⟨10, 0, 20, 10⟩, true, true,
            []⟩] : List DetTile).count
          ⟨⟨0, 0, 10, 10⟩, ⟨0, 0, 10, 10⟩, true, true,
            [⟨0, 1/2, 1/2, 1/5, 1/5⟩]⟩ = 1 →
      (rectDets ⟨⟨0, 0, 10, 10⟩, ⟨0, 0, 10, 10⟩, true, true,
          [⟨0, 1/2, 1/2, 1/5, 1/5⟩]⟩).count
          (bboxFromYolo ⟨0, 0, 10, 10⟩ ⟨0, 1/2, 1/2, 1/5, 1/5⟩) = 1 →
      (bboxFromYolo ⟨0, 0, 10, 10⟩
          ⟨0, 1/2, 1/2, 1/5, 1/5⟩).2.centroid ∈
        Rect.toSet ⟨0, 0, 10, 10⟩ →
      (∀ t ∈ ([⟨⟨0, 0, 10, 10⟩, ⟨0, 0, 10, 10⟩, true, true,
            [⟨0, 1/2, 1/2, 1/5, 1/5⟩]⟩,
          ⟨⟨10, 0, 20, 10⟩, ⟨10, 0, 20, 10⟩, true, true,
            []⟩] : List DetTile),
        t ≠ ⟨⟨0, 0, 10, 10⟩, ⟨0, 0, 10, 10⟩, true, true,
            [⟨0, 1/2, 1/2, 1/5, 1/5⟩]⟩ →
          (bboxFromYolo ⟨0, 0, 10, 10⟩
              ⟨0, 1/2, 1/2, 1/5, 1/5⟩).2.centroid ∉
            t.innerRect.toSet) →
      (([⟨⟨0, 0, 10, 10⟩, ⟨0, 0, 10, 10⟩, true, true,
            [⟨0, 1/2, 1/2, 1/5, 1/5⟩]⟩,
          ⟨⟨10, 0, 20, 10⟩, ⟨10, 0, 20, 10⟩, true, true,
            []⟩] : List DetTile).flatMap
          fun t => clipByInner t (rectDets t)).count
        (bboxFromYolo ⟨0, 0, 10, 10⟩ ⟨0, 1/2, 1/2, 1/5, 1/5⟩) = 1) :=
  dedup_by_centroid
    [⟨⟨0, 0, 10, 10⟩, ⟨0, 0, 10, 10⟩, true, true,
        [⟨0, 1/2, 1/2, 1/5, 1/5⟩]⟩,
      ⟨⟨10, 0, 20, 10⟩, ⟨10, 0, 20, 10⟩, true, true, []⟩]
    (bboxFromYolo ⟨0, 0, 10, 10⟩ ⟨0, 1/2, 1/2, 1/5, 1/5⟩)
    ⟨⟨0, 0, 10, 10⟩, ⟨0, 0, 10, 10⟩, true, true,
      [⟨0, 1/2, 1/2, 1/5, 1/5⟩]⟩
    (by
      intro t ht
      rcases List.mem_cons.mp ht with h | h
      · subst h; exact ⟨rfl, rfl⟩
      · rcases List.mem_cons.mp h with h' | h'
        · subst h'; exact ⟨rfl, rfl⟩
        · simp at h')
    (by simp)

theorem map_flatMap_helper {α β γ : Type} (g : β → γ) (f : α → List β)
    (l : List α) :
    (l.flatMap f).map g = l.flatMap fun x => (f x).map g := by
  induction l with
  | nil => rfl
  | cons x xs ih =>
    rw [List.flatMap_cons, List.flatMap_cons, List.map_append, ih]

theorem tileGrid_map_cell (geom : Set (ℚ × ℚ)) (minx miny : ℚ)
    (nc nr : ℤ) (tw th : ℚ) :
    (tileGrid geom minx miny nc nr tw th).map Tile.cell =
      (List.range nc.toNat).flatMap fun i =>
        (List.range nr.toNat).map fun j => cellAt minx miny tw th i j := by
  rw [tileGrid, map_flatMap_helper]
  simp only [List.map_map]
  rfl

theorem cover1D (a t x : ℚ) (ht : 0 < t) :
    ∀ n : ℕ, 0 < n → a ≤ x → x ≤ a + n * t →
      ∃ i : ℕ, i < n ∧ a + i * t ≤ x ∧ x ≤ a + (i + 1) * t := by
  intro n
  induction n with
  | zero => intro h; exact absurd h (lt_irrefl 0)
  | succ m ih =>
    intro _ hx hx'
    by_cases hxm : x ≤ a + m * t
    · rcases Nat.eq_zero_or_pos m with hm | hm
      · subst hm
        refine ⟨0, Nat.one_pos, ?_, ?_⟩
        · simpa using hx
        · push_cast at hxm ⊢
          linarith
      · obtain ⟨i, hi, h1, h2⟩ := ih hm hx hxm
        exact ⟨i, Nat.lt_succ_of_lt hi, h1, h2⟩
    · push_neg at hxm
      refine ⟨m, Nat.lt_succ_self m, le_of_lt hxm, ?_⟩
      push_cast at hx' ⊢
      linarith

theorem disjoint1D (a t : ℚ) (ht : 0 < t) (i j : ℕ) (hij : i ≠ j) (x : ℚ)
    (h1 : a + i * t < x) (h2 : x < a + (i + 1) * t)
    (h3 : a + j * t < x) (h4 : x < a + (j + 1) * t) : False := by
  rcases Nat.lt_or_ge i j with h | h
  · have hij' : ((i : ℚ) + 1) ≤ (j : ℚ) := by
      exact_mod_cast Nat.succ_le_of_lt h
    linarith [mul_le_mul_of_nonneg_right hij' ht.le]
  · have hji : j < i := Nat.lt_of_le_of_ne h (Ne.symm hij)
    have hij' : ((j : ℚ) + 1) ≤ (i : ℚ) := by
      exact_mod_cast Nat.succ_le_of_lt hji
    linarith [mul_le_mul_of_nonneg_right hij' ht.le]

/-- C3: with bbox width `W` and height `H` both positive and maximum
dimensions `mw, mh` positive, `get_tiles` succeeds using
`n_cols = ceil(W/mw)`, `n_rows = ceil(H/mh)` cells of equal size `W/n_cols`
by `H/n_rows`; every cell's dimensions are at most `(mw, mh)`; the cells
cover the bounding box exactly (each cell inside the box, each point of the
box in some cell) and distinct cells have disjoint interiors. -/
theorem grid_coverage (geom : Set (ℚ × ℚ)) (minx miny maxx maxy mw mh : ℚ)
    (nc nr : ℤ) (tw th : ℚ)
    (hx : minx < maxx) (hy : miny < maxy) (hmw : 0 < mw) (hmh : 0 < mh)
    (hnc : nc = ⌈(maxx - minx) / mw⌉) (hnr : nr = ⌈(maxy - miny) / mh⌉)
    (htw : tw = (maxx - minx) / (nc : ℚ))
    (hth : th = (maxy - miny) / (nr : ℚ)) :
    (0 < nc ∧ 0 < nr) ∧
    (0 < tw ∧ tw ≤ mw ∧ 0 < th ∧ th ≤ mh) ∧
    (∀ i j : ℕ,
      (cellAt minx miny tw th i j).maxx -
        (cellAt minx miny tw th i j).minx = tw ∧
      (cellAt minx miny tw th i j).maxy -
        (cellAt minx miny tw th i j).miny = th) ∧
    (∃ ts, getTilesArea geom minx miny maxx maxy mw mh = .ok ts ∧
      ts.map Tile.cell = (List.range nc.toNat).flatMap fun i =>
        (List.range nr.toNat).map fun j => cellAt minx miny tw th i j) ∧
    (∀ i j : ℕ, i < nc.toNat → j < nr.toNat →
      (cellAt minx miny tw th i j).toSet ⊆
        Rect.toSet ⟨minx, miny, maxx, maxy⟩) ∧
    (∀ p : ℚ × ℚ, p ∈ Rect.toSet ⟨minx, miny, maxx, maxy⟩ →
      ∃ i j : ℕ, i < nc.toNat ∧ j < nr.toNat ∧
        p ∈ (cellAt minx miny tw th i j).toSet) ∧
    (∀ i j i' j' : ℕ, (i, j) ≠ (i', j') →
      (cellAt minx miny tw th i j).interiorSet ∩
        (cellAt minx miny tw th i' j').interiorSet = ∅) := by
  have hW : 0 < maxx - minx := by linarith
  have hH : 0 < maxy - miny := by linarith
  have hncpos : 0 < nc := hnc ▸ Int.ceil_pos.mpr (div_pos hW hmw)
  have hnrpos : 0 < nr := hnr ▸ Int.ceil_pos.mpr (div_pos hH hmh)
  have hncQ : (0 : ℚ) < (nc : ℚ) := by exact_mod_cast hncpos
  have hnrQ : (0 : ℚ) < (nr : ℚ) := by exact_mod_cast hnrpos
  have htwpos : 0 < tw := htw ▸ div_pos hW hncQ
  have hthpos : 0 < th := hth ▸ div_pos hH hnrQ
  have hWle : maxx - minx ≤ (nc : ℚ) * mw := by
    have h1 : (maxx - minx) / mw ≤ (nc : ℚ) := by
      rw [hnc]; exact_mod_cast Int.le_ceil ((maxx - minx) / mw)
    calc maxx - minx = (maxx - minx) / mw * mw := by field_simp
    _ ≤ (nc : ℚ) * mw := mul_le_mul_of_nonneg_right h1 hmw.le
  have hHle : maxy - miny ≤ (nr : ℚ) * mh := by
    have h1 : (maxy - miny) / mh ≤ (nr : ℚ) := by
      rw [hnr]; exact_mod_cast Int.le_ceil ((maxy - miny) / mh)
    calc maxy - miny = (maxy - miny) / mh * mh := by field_simp
    _ ≤ (nr : ℚ) * mh := mul_le_mul_of_nonneg_right h1 hmh.le
  have htwle : tw ≤ mw := by
    rw [htw, div_le_iff₀ hncQ]
    linarith [hWle]
  have hthle : th ≤ mh := by
    rw [hth, div_le_iff₀ hnrQ]
    linarith [hHle]
  have hnctw : (nc : ℚ) * tw = maxx - minx := by
    rw [htw]; field_simp
  have hnrth : (nr : ℚ) * th = maxy - miny := by
    rw [hth]; field_simp
  have hncNat : ((nc.toNat : ℤ)) = nc := Int.toNat_of_nonneg hncpos.le
  have hnrNat : ((nr.toNat : ℤ)) = nr := Int.toNat_of_nonneg hnrpos.le
  have hncNatQ : ((nc.toNat : ℚ)) = (nc : ℚ) := by exact_mod_cast hncNat
  have hnrNatQ : ((nr.toNat : ℚ)) = (nr : ℚ) := by exact_mod_cast hnrNat
  refine ⟨⟨hncpos, hnrpos⟩, ⟨htwpos, htwle, hthpos, hthle⟩, ?_, ?_, ?_, ?_, ?_⟩
  · intro i j
    constructor <;> (simp only [cellAt]; ring)
  · have h1 : ((⌈(maxx - minx) / mw⌉ : ℤ) : ℚ) ≠ 0 := by
      rw [← hnc]; exact ne_of_gt hncQ
    have h2 : ((⌈(maxy - miny) / mh⌉ : ℤ) : ℚ) ≠ 0 := by
      rw [← hnr]; exact ne_of_gt hnrQ
    have heval := getTilesArea_ok geom minx miny maxx maxy mw mh
      (ne_of_gt hmw) (ne_of_gt hmh) h1 h2
    rw [← hnc, ← hnr, ← htw, ← hth] at heval
    exact ⟨_, heval, tileGrid_map_cell geom minx miny nc nr tw th⟩
  · intro i j hi hj p hp
    simp only [cellAt, Rect.toSet, Set.mem_setOf_eq] at hp ⊢
    obtain ⟨ha, hb, hc, hd⟩ := hp
    have hi1 : ((i : ℚ) + 1) ≤ (nc : ℚ) := by
      rw [← hncNatQ]; exact_mod_cast Nat.succ_le_of_lt hi
    have hj1 : ((j : ℚ) + 1) ≤ (nr : ℚ) := by
      rw [← hnrNatQ]; exact_mod_cast Nat.succ_le_of_lt hj
    have hi0 : (0 : ℚ) ≤ (i : ℚ) := Nat.cast_nonneg i
    have hj0 : (0 : ℚ) ≤ (j : ℚ) := Nat.cast_nonneg j
    have hiw : (0 : ℚ) ≤ (i : ℚ) * tw := mul_nonneg hi0 htwpos.le
    have hjh : (0 : ℚ) ≤ (j : ℚ) * th := mul_nonneg hj0 hthpos.le
    have hiw1 : ((i : ℚ) + 1) * tw ≤ (nc : ℚ) * tw :=
      mul_le_mul_of_nonneg_right hi1 htwpos.le
    have hjh1 : ((j : ℚ) + 1) * th ≤ (nr : ℚ) * th :=
      mul_le_mul_of_nonneg_right hj1 hthpos.le
    rw [hnctw] at hiw1
    rw [hnrth] at hjh1
    refine ⟨by linarith, by linarith, by linarith, by linarith⟩
  · intro p hp
    simp only [Rect.toSet, Set.mem_setOf_eq] at hp
    obtain ⟨ha, hb, hc, hd⟩ := hp
    have hn1 : 0 < nc.toNat := by omega
    have hn2 : 0 < nr.toNat := by omega
    obtain ⟨i, hi, hi1, hi2⟩ := cover1D minx tw p.1 htwpos nc.toNat hn1 ha
      (by rw [hncNatQ, hnctw]; linarith)
    obtain ⟨j, hj, hj1, hj2⟩ := cover1D miny th p.2 hthpos nr.toNat hn2 hc
      (by rw [hnrNatQ, hnrth]; linarith)
    exact ⟨i, j, hi, hj, hi1, hi2, hj1, hj2⟩
  · intro i j i' j' hne
    rw [Set.eq_empty_iff_forall_not_mem]
    intro p hp
    obtain ⟨hp1, hp2⟩ := hp
    simp only [cellAt, Rect.interiorSet, Set.mem_setOf_eq] at hp1 hp2
    by_cases hii : i = i'
    · subst hii
      have hjj : j ≠ j' := by
        intro h
        exact hne (by rw [h])
      exact disjoint1D miny th hthpos j j' hjj p.2
        hp1.2.2.1 hp1.2.2.2 hp2.2.2.1 hp2.2.2.2
    · exact disjoint1D minx tw htwpos i i' hii p.1
        hp1.1 hp1.2.1 hp2.1 hp2.2.1

/-- Witness for C3 at the spec's concrete scenario: bbox `(0,0,1000,1000)`,
maximum tile dimensions `600`, giving a 2-by-2 grid of 500-by-500 cells. -/
theorem grid_coverage_witness :
    ((0 : ℤ) < 2 ∧ (0 : ℤ) < 2) ∧
    ((0 : ℚ) < 500 ∧ (500 : ℚ) ≤ 600 ∧ (0 : ℚ) < 500 ∧ (500 : ℚ) ≤ 600) ∧
    (∀ i j : ℕ,
      (cellAt 0 0 500 500 i j).maxx - (cellAt 0 0 500 500 i j).minx = 500 ∧
      (cellAt 0 0 500 500 i j).maxy - (cellAt 0 0 500 500 i j).miny = 500) ∧
    (∃ ts, getTilesArea ∅ 0 0 1000 1000 600 600 = .ok ts ∧
      ts.map Tile.cell = (List.range (2 : ℤ).toNat).flatMap fun i =>
        (List.range (2 : ℤ).toNat).map fun j => cellAt 0 0 500 500 i j) ∧
    (∀ i j : ℕ, i < (2 : ℤ).toNat → j < (2 : ℤ).toNat →
      (cellAt 0 0 500 500 i j).toSet ⊆ Rect.toSet ⟨0, 0, 1000, 1000⟩) ∧
    (∀ p : ℚ × ℚ, p ∈ Rect.toSet ⟨0, 0, 1000, 1000⟩ →
      ∃ i j : ℕ, i < (2 : ℤ).toNat ∧ j < (2 : ℤ).toNat ∧
        p ∈ (cellAt 0 0 500 500 i j).toSet) ∧
    (∀ i j i' j' : ℕ, (i, j) ≠ (i', j') →
      (cellAt 0 0 500 500 i j).interiorSet ∩
        (cellAt 0 0 500 500 i' j').interiorSet = ∅) :=
  grid_coverage ∅ 0 0 1000 1000 600 600 2 2 500 500
    (by norm_num) (by norm_num) (by norm_num) (by norm_num)
    (by
      rw [show ((1000 : ℚ) - 0) / 600 = 5/3 by norm_num,
        show (⌈(5/3 : ℚ)⌉ : ℤ) = 2 by
          rw [Int.ceil_eq_iff]; constructor <;> norm_num])
    (by
      rw [show ((1000 : ℚ) - 0) / 600 = 5/3 by norm_num,
        show (⌈(5/3 : ℚ)⌉ : ℤ) = 2 by
          rw [Int.ceil_eq_iff]; constructor <;> norm_num])
    (by push_cast; norm_num)
    (by push_cast; norm_num)

end TileOrtho
